import Mathlib

/-!
# umap: the Page Flusher sweep and the `map_in_file` test helper

A verification development over two files of the repository:

* `src/umap/PageFlusher.hpp`: the constructor, the destructor, `FlushAll`
  and `ThreadEntry` of `Umap::PageFlusher`;
* `tests/umapsort/umap_file.hpp`: `utility::map_in_file`.

Stateful code is embedded as explicit state passing.  Every call that is
visible to the rest of the process (locking, queries of the buffer,
submissions to the Flushers, sleeping, system calls) is recorded in a list of
events, in program order.  A loop whose termination is not structural takes a
fuel argument and returns `none` when the fuel runs out.
-/

namespace Umap

/-- Handle of a `Store` object (the value of a `Store*`). -/
abbrev Store := Nat

/-- Modelled from the spec: the class `PageDescriptor` is declared in
`umap/Buffer.hpp`, which is missing.  The spec (section 3) gives a resident
page a virtual address, an insertion/recency order token and a dirty flag. -/
structure PageDescriptor where
  page_addr : Nat
  order : Nat
  dirty : Bool
deriving DecidableEq, Repr

/-- Modelled from the spec: `PageDescriptor::page_is_dirty` is missing; the
spec makes it the dirty flag of the descriptor. -/
def PageDescriptor.page_is_dirty (pd : PageDescriptor) : Bool := pd.dirty

/-- The struct `WorkItem` as `FlushAll` fills it: `page_desc` and `store`,
where `none` stands for `nullptr`. -/
structure WorkItem where
  page_desc : PageDescriptor
  store : Option Store
deriving DecidableEq, Repr

/-- Modelled from the spec: the class `Buffer` is missing.  It holds the
resident pages (in no particular order) and a lock that is not reentrant. -/
structure Buffer where
  present : List PageDescriptor
  locked : Bool
deriving DecidableEq, Repr

/-- Modelled from the spec: the order that selects the oldest present page,
"the resident page with the smallest recency token", "ties broken by
address". -/
def older (p q : PageDescriptor) : Bool :=
  p.order < q.order || (p.order == q.order && p.page_addr ≤ q.page_addr)

/-- Modelled from the spec: the oldest present page of a list of resident
pages, `none` when there is no resident page. -/
def oldest_of : List PageDescriptor → Option PageDescriptor
  | [] => none
  | p :: ps =>
    match oldest_of ps with
    | none => some p
    | some q => if older p q then some p else some q

/-- Modelled from the spec: `Buffer::get_oldest_present_page_descriptor` is
missing.  The spec has `FlushAll` "repeatedly take" the oldest present page
while it holds the buffer lock, so that the query "sees monotonically
shrinking residency" although the Store I/O of the Flushers only happens
later: the call hands out the oldest present page and takes it off the pages
the buffer reports as present.  `none` stands for `nullptr`. -/
def Buffer.get_oldest_present_page_descriptor (b : Buffer) :
    Option PageDescriptor × Buffer :=
  match oldest_of b.present with
  | none => (none, b)
  | some pd => (some pd, { b with present := b.present.erase pd })

/-- Modelled from the spec: `Buffer::lock` is missing.  The lock is not
reentrant: acquiring it while it is held never returns (`none`). -/
def Buffer.lock (b : Buffer) : Option Buffer :=
  if b.locked then none else some { b with locked := true }

/-- Modelled from the spec: `Buffer::unlock` is missing; it frees the lock. -/
def Buffer.unlock (b : Buffer) : Buffer := { b with locked := false }

/-- The calls of the Page Flusher that the rest of the engine observes. -/
inductive Event where
  | lock
  | unlock
  | query (result : Option PageDescriptor)
  | send_work (work : WorkItem)
  | delete_flushers
  | sleep (seconds : Nat)
  | new_flushers (workers : Nat)
  | start_thread_pool (threads : Nat)
deriving DecidableEq, Repr

/-- The members of a `PageFlusher` object together with the objects its
pointers refer to: `m_buffer` points to `buffer`, `m_page_flushers` points to
`flushers` (a state of type `F`, the class `Flushers` being missing), and
`m_store` is a plain handle. -/
structure PageFlusher (F : Type) where
  buffer : Buffer
  m_store : Store
  flushers : F

/-- The work item built by one iteration of the loop of `FlushAll`:
`work.page_desc = pd`, and `work.store = m_store` if `pd->page_is_dirty()`,
else `nullptr`. -/
def make_work (m_store : Store) (pd : PageDescriptor) : WorkItem :=
  { page_desc := pd
    store := if pd.page_is_dirty then some m_store else none }

/-- The `for` loop of `FlushAll`: query the buffer; stop when the result is
`nullptr`; otherwise build the work item, pass it to `send_work` and query
again.  `send_work` is the method of the missing class `Flushers`, taken as a
parameter.  Returns the final object and the events of the loop in order, or
`none` when the fuel runs out. -/
def FlushAll_loop {F : Type} (send_work : F → WorkItem → F) :
    Nat → PageFlusher F → Option (PageFlusher F × List Event)
  | 0, _ => none
  | fuel + 1, pf =>
    match pf.buffer.get_oldest_present_page_descriptor with
    | (none, b) => some ({ pf with buffer := b }, [Event.query none])
    | (some pd, b) =>
      let work := make_work pf.m_store pd
      match FlushAll_loop send_work fuel
          { pf with buffer := b, flushers := send_work pf.flushers work } with
      | none => none
      | some (pf', evs) =>
        some (pf', Event.query (some pd) :: Event.send_work work :: evs)

/-- `PageFlusher::FlushAll`: lock the buffer, run the loop, unlock the
buffer. -/
def FlushAll {F : Type} (send_work : F → WorkItem → F) (fuel : Nat)
    (pf : PageFlusher F) : Option (PageFlusher F × List Event) :=
  match pf.buffer.lock with
  | none => none
  | some b =>
    match FlushAll_loop send_work fuel { pf with buffer := b } with
    | none => none
    | some (pf', evs) =>
      some ({ pf' with buffer := pf'.buffer.unlock },
        Event.lock :: (evs ++ [Event.unlock]))

/-- `PageFlusher::~PageFlusher`: `FlushAll()` and then
`delete m_page_flushers`. -/
def destroy {F : Type} (send_work : F → WorkItem → F) (fuel : Nat)
    (pf : PageFlusher F) : Option (PageFlusher F × List Event) :=
  match FlushAll send_work fuel pf with
  | none => none
  | some (pf', evs) => some (pf', evs ++ [Event.delete_flushers])

/-- `PageFlusher::ThreadEntry`: while `time_to_stop_thread_pool()` is false,
declare an empty vector of page descriptors and `sleep(1)`.
`time_to_stop` gives the answer of `time_to_stop_thread_pool()` at the
start of each iteration, counted from `i`.  Nothing in the body touches the
object, so only the events are returned. -/
def ThreadEntry (time_to_stop : Nat → Bool) : Nat → Nat → Option (List Event)
  | 0, _ => none
  | fuel + 1, i =>
    if time_to_stop i then some []
    else
      match ThreadEntry time_to_stop fuel (i + 1) with
      | none => none
      | some evs => some (Event.sleep 1 :: evs)

/-- The process-wide singleton `PageRegion::getInstance()`, as far as the
constructor reads it: the value its `get_num_flushers()` returns. -/
structure PageRegion where
  num_flushers : Nat
deriving DecidableEq, Repr

/-- The result of `PageFlusher::PageFlusher(num_flushers, buffer, uffd,
store)`: the base `WorkerPool("Page Flusher", 1)`, the members `m_buffer` and
`m_store`, and the pool made by
`new Flushers(PageRegion::getInstance()->get_num_flushers(), m_buffer, uffd)`,
followed by `start_thread_pool()`. -/
structure Constructed where
  pool_name : String
  pool_threads : Nat
  flusher_workers : Nat
  m_store : Store
  buffer : Buffer
  events : List Event
deriving DecidableEq, Repr

/-- `PageFlusher::PageFlusher`. -/
def construct (instance_ : PageRegion) (num_flushers : Nat) (buffer : Buffer)
    (store : Store) : Constructed :=
  let _unused := num_flushers
  { pool_name := "Page Flusher"
    pool_threads := 1
    flusher_workers := instance_.num_flushers
    m_store := store
    buffer := buffer
    events := [Event.new_flushers instance_.num_flushers,
               Event.start_thread_pool 1] }

/-- The work items passed to `send_work`, in order, in a list of events. -/
def sent : List Event → List WorkItem
  | [] => []
  | Event.send_work w :: evs => w :: sent evs
  | _ :: evs => sent evs

/-- The answers of `get_oldest_present_page_descriptor`, in order. -/
def queries : List Event → List (Option PageDescriptor)
  | [] => []
  | Event.query r :: evs => r :: queries evs
  | _ :: evs => queries evs

/-- The events of a sweep that hands out the pages `ds` in this order: a
query and a submission per page, then the query that finds no page. -/
def sweep_events (m_store : Store) : List PageDescriptor → List Event
  | [] => [Event.query none]
  | pd :: ds =>
    Event.query (some pd) :: Event.send_work (make_work m_store pd) ::
      sweep_events m_store ds

/-- Modelled from the spec: the class `Flushers` is missing.  The state is
the queue of submitted work items, in submission order, and what the workers
have done so far (section 4.3): the pages whose Store write succeeded and the
pages whose Store write failed, which are reported. -/
structure Flushers where
  queue : List WorkItem
  store_writes : List PageDescriptor
  failed : List PageDescriptor
deriving DecidableEq, Repr

/-- Modelled from the spec: `Flushers::send_work` "enqueues" the item and
"never drops work". -/
def Flushers.send_work (f : Flushers) (w : WorkItem) : Flushers :=
  { f with queue := f.queue ++ [w] }

/-- Modelled from the spec: what a Flushers worker does with one dequeued
item (section 4.3), given the assignment `write_ok` of success or failure to
the Store write of each page.  An item with a Store target is written; after
a successful write, and for an item without Store target, the descriptor is
removed from the Page Buffer.  "A failed Store write is reported and the
descriptor is not removed - the page remains resident and dirty so it can be
retried": the descriptor, which the query had handed to the work item, is
among the present pages of the buffer again, with its dirty flag. -/
def Flushers.work (write_ok : PageDescriptor → Bool) (s : Flushers × Buffer)
    (w : WorkItem) : Flushers × Buffer :=
  match w.store with
  | none => (s.1, { s.2 with present := s.2.present.erase w.page_desc })
  | some _ =>
    if write_ok w.page_desc then
      ({ s.1 with store_writes := s.1.store_writes ++ [w.page_desc] },
       { s.2 with present := s.2.present.erase w.page_desc })
    else
      ({ s.1 with failed := s.1.failed ++ [w.page_desc] },
       { s.2 with present := w.page_desc :: s.2.present })

/-- A Flushers state that only records what was submitted, in order. -/
def record_work (q : List WorkItem) (w : WorkItem) : List WorkItem := q ++ [w]

/-- An example object: two resident pages, the younger one listed first and
clean, the older one dirty; the lock is free; the Store handle is 7. -/
def example_flusher : PageFlusher (List WorkItem) :=
  { buffer := { present := [⟨8192, 2, false⟩, ⟨4096, 1, true⟩], locked := false }
    m_store := 7
    flushers := [] }

end Umap

namespace utility

/-- The constants of the system headers and of `umap/umap.h` that
`map_in_file` uses.  None of them is defined in the repository files at
hand, so they are parameters of the embedding. -/
structure Consts where
  O_RDWR : Nat
  O_LARGEFILE : Nat
  O_DIRECT : Nat
  O_CREAT : Nat
  ENOENT : Nat
  S_IRUSR : Nat
  S_IWUSR : Nat
  PROT_READ : Nat
  PROT_WRITE : Nat
  MAP_SHARED : Nat
  MAP_NORESERVE : Nat
  MAP_FAILED : Nat
  UMAP_PRIVATE : Nat
  UMAP_FAILED : Nat
deriving DecidableEq, Repr

/-- The values on Linux x86-64 (`UMAP_PRIVATE` is `MAP_PRIVATE`, and both
failure pointers are `(void *)-1`). -/
def linux : Consts :=
  { O_RDWR := 2, O_LARGEFILE := 0, O_DIRECT := 16384, O_CREAT := 64
    ENOENT := 2, S_IRUSR := 256, S_IWUSR := 128
    PROT_READ := 1, PROT_WRITE := 2
    MAP_SHARED := 1, MAP_NORESERVE := 16384, MAP_FAILED := 2 ^ 64 - 1
    UMAP_PRIVATE := 2, UMAP_FAILED := 2 ^ 64 - 1 }

/-- What the operating system answers to the calls of one run of
`map_in_file` (each call is made at most once per run).
`unlink_errno` is `none` when `unlink` returns 0 and the value of `errno`
otherwise; `open_fd` is the result of `open` for the given flags;
`fallocate_ret` is the result of `posix_fallocate`; `fstat_size` is `none`
when `fstat` returns -1 and the `st_size` it stores otherwise; `mmap_ret` and
`umap_ret` are the pointers returned by `mmap` and `umap`. -/
structure Env where
  unlink_errno : Option Nat
  open_fd : Nat → Int
  fallocate_ret : Int
  fstat_size : Option Nat
  mmap_ret : Nat
  umap_ret : Nat

/-- The calls and reports of `map_in_file`, in program order. -/
inductive Call where
  | cout_deleting (filename : String)
  | unlink (filename : String)
  | cerr_unlink (eno : Nat)
  | open_ (filename : String) (flags : Nat) (mode : Nat)
  | perror_open
  | posix_fallocate (fd : Int) (offset : Int) (len : Int)
  | perror_fallocate
  | fstat (fd : Int)
  | perror_fstat
  | cerr_size (st_size : Nat) (numbytes : Nat)
  | mmap (addr : Nat) (length : Nat) (prot : Nat) (flags : Nat) (fd : Int) (offset : Int)
  | perror_mmap
  | umap (addr : Nat) (length : Nat) (prot : Nat) (flags : Nat) (fd : Int) (offset : Int)
  | perror_umap
deriving DecidableEq, Repr

/-- The null pointer. -/
def NULL : Nat := 0

/-- The conversion of a `uint64_t` to the signed 64-bit `off_t`. -/
def to_off_t (n : Nat) : Int :=
  if n % 2 ^ 64 < 2 ^ 63 then ((n % 2 ^ 64 : Nat) : Int)
  else ((n % 2 ^ 64 : Nat) : Int) - 2 ^ 64

/-- The flags `O_RDWR | O_LARGEFILE | O_DIRECT` that `o_opts` starts with. -/
def base_opts (c : Consts) : Nat := c.O_RDWR ||| c.O_LARGEFILE ||| c.O_DIRECT

/-- The end of `map_in_file`, from `const int prot` on: `mmap` when
`usemmap`, `umap` otherwise, and `NULL` when the call fails. -/
def map_region (c : Consts) (env : Env) (usemmap : Bool) (numbytes : Nat)
    (fd : Int) : Nat × List Call :=
  let prot := c.PROT_READ ||| c.PROT_WRITE
  if usemmap then
    let region := env.mmap_ret
    let call := Call.mmap NULL numbytes prot (c.MAP_SHARED ||| c.MAP_NORESERVE) fd 0
    if region = c.MAP_FAILED then (NULL, [call, Call.perror_mmap])
    else (region, [call])
  else
    let flags := c.UMAP_PRIVATE
    let region := env.umap_ret
    let call := Call.umap NULL numbytes prot flags fd 0
    if region = c.UMAP_FAILED then (NULL, [call, Call.perror_umap])
    else (region, [call])

/-- The middle of `map_in_file`: `fstat`, the comparison of
`(off_t)sbuf.st_size` with `numbytes` (made in `uint64_t`), then the
mapping. -/
def check_size (c : Consts) (env : Env) (usemmap : Bool) (numbytes : Nat)
    (fd : Int) : Nat × List Call :=
  match env.fstat_size with
  | none => (NULL, [Call.fstat fd, Call.perror_fstat])
  | some st_size =>
    if st_size % 2 ^ 64 ≠ numbytes then
      (NULL, [Call.fstat fd, Call.cerr_size st_size numbytes])
    else
      let r := map_region c env usemmap numbytes fd
      (r.1, Call.fstat fd :: r.2)

/-- The events of the first `if` of `map_in_file`: when `initonly || !noinit`,
the message, `unlink`, and the report of a failure other than `ENOENT`. -/
def unlink_step (c : Consts) (env : Env) (filename : String)
    (initonly noinit : Bool) : List Call :=
  if initonly || !noinit then
    Call.cout_deleting filename :: Call.unlink filename ::
      (match env.unlink_errno with
       | none => []
       | some eno => if eno ≠ c.ENOENT then [Call.cerr_unlink eno] else [])
  else []

/-- The value of `o_opts` after the first `if` of `map_in_file`. -/
def open_opts (c : Consts) (initonly noinit : Bool) : Nat :=
  if initonly || !noinit then base_opts c ||| c.O_CREAT else base_opts c

/-- `utility::map_in_file`: the returned pointer and the calls made.
`posix_fallocate` is a C function and throws nothing, so the two `catch`
clauses are never entered. -/
def map_in_file (c : Consts) (env : Env) (filename : String)
    (initonly noinit usemmap : Bool) (numbytes : Nat) : Nat × List Call :=
  let o_opts := open_opts c initonly noinit
  let evs := unlink_step c env filename initonly noinit
  let fd := env.open_fd o_opts
  let evs := evs ++ [Call.open_ filename o_opts (c.S_IRUSR ||| c.S_IWUSR)]
  if fd = -1 then (NULL, evs ++ [Call.perror_open])
  else if o_opts &&& c.O_CREAT ≠ 0 then
    let falloc := Call.posix_fallocate fd 0 (to_off_t numbytes)
    if env.fallocate_ret ≠ 0 then (NULL, evs ++ [falloc, Call.perror_fallocate])
    else
      let r := check_size c env usemmap numbytes fd
      (r.1, evs ++ falloc :: r.2)
  else
    let r := check_size c env usemmap numbytes fd
    (r.1, evs ++ r.2)

/-- An example run: the file does not exist (`unlink` fails with `ENOENT`),
`open` gives descriptor 3, preallocation succeeds, `fstat` reports 4096 bytes,
and both mapping calls would return the address 65536. -/
def example_env : Env :=
  { unlink_errno := some 2
    open_fd := fun _ => 3
    fallocate_ret := 0
    fstat_size := some 4096
    mmap_ret := 65536
    umap_ret := 65536 }

/-- Whether a call is `unlink`. -/
def Call.is_unlink : Call → Bool
  | Call.unlink _ => true
  | _ => false

/-- Whether a call is `posix_fallocate`. -/
def Call.is_fallocate : Call → Bool
  | Call.posix_fallocate _ _ _ => true
  | _ => false

/-- Whether a call is `mmap` or `umap`. -/
def Call.is_map : Call → Bool
  | Call.mmap _ _ _ _ _ _ => true
  | Call.umap _ _ _ _ _ _ => true
  | _ => false

/-- The flags of the `open` calls in a list of calls. -/
def open_flags : List Call → List Nat
  | [] => []
  | Call.open_ _ flags _ :: cs => flags :: open_flags cs
  | _ :: cs => open_flags cs

end utility

namespace Umap

/-! ## The oldest present page -/

theorem older_total (p q : PageDescriptor) : older p q = true ∨ older q p = true := by
  simp only [older, Bool.or_eq_true, Bool.and_eq_true, decide_eq_true_eq, beq_iff_eq]
  omega

theorem older_trans {p q r : PageDescriptor} (h₁ : older p q = true)
    (h₂ : older q r = true) : older p r = true := by
  simp only [older, Bool.or_eq_true, Bool.and_eq_true, decide_eq_true_eq, beq_iff_eq] at *
  omega

theorem older_refl (p : PageDescriptor) : older p p = true := by
  simp [older]

theorem oldest_of_eq_none {l : List PageDescriptor} (h : oldest_of l = none) : l = [] := by
  cases l with
  | nil => rfl
  | cons p ps =>
    simp only [oldest_of] at h
    split at h
    · cases h
    · split at h <;> cases h

theorem oldest_of_mem {l : List PageDescriptor} {m : PageDescriptor}
    (h : oldest_of l = some m) : m ∈ l := by
  induction l generalizing m with
  | nil => simp [oldest_of] at h
  | cons p ps ih =>
    simp only [oldest_of] at h
    split at h
    · cases h; simp
    · rename_i q hq
      split at h
      · cases h; simp
      · cases h; exact List.mem_cons_of_mem _ (ih hq)

theorem oldest_of_older {l : List PageDescriptor} {m : PageDescriptor}
    (h : oldest_of l = some m) : ∀ x ∈ l, older m x = true := by
  induction l generalizing m with
  | nil => simp [oldest_of] at h
  | cons p ps ih =>
    simp only [oldest_of] at h
    split at h
    · rename_i hq
      cases h
      have := oldest_of_eq_none hq
      subst this
      intro x hx
      simp at hx
      subst hx
      exact older_refl _
    · rename_i q hq
      split at h
      · rename_i hpq
        cases h
        intro x hx
        rcases List.mem_cons.1 hx with rfl | hx
        · exact older_refl _
        · exact older_trans hpq (ih hq x hx)
      · rename_i hpq
        cases h
        intro x hx
        rcases List.mem_cons.1 hx with rfl | hx
        · rcases older_total x m with h' | h'
          · exact absurd h' hpq
          · exact h'
        · exact ih hq x hx

/-- What the loop of `FlushAll` does when the fuel exceeds the number of
present pages: it returns, having handed out a list `ds` of pages that is a
rearrangement of the present pages, oldest first, with exactly the events of
a sweep over `ds`; the buffer is left without present page, its lock
untouched, and the Flushers have received the work items of `ds` in order. -/
theorem FlushAll_loop_spec {F : Type} (send_work : F → WorkItem → F) :
    ∀ (fuel : Nat) (pf : PageFlusher F), pf.buffer.present.length < fuel →
      ∃ ds : List PageDescriptor,
        FlushAll_loop send_work fuel pf =
          some ({ buffer := { present := [], locked := pf.buffer.locked }
                  m_store := pf.m_store
                  flushers := (ds.map (make_work pf.m_store)).foldl send_work pf.flushers },
                sweep_events pf.m_store ds) ∧
        ds.Perm pf.buffer.present ∧
        ds.Pairwise (fun p q => older p q = true) := by
  intro fuel
  induction fuel with
  | zero => intro pf h; omega
  | succ fuel ih =>
    intro pf h
    obtain ⟨⟨present, locked⟩, m_store, fl⟩ := pf
    simp only at h
    cases hq : oldest_of present with
    | none =>
      have := oldest_of_eq_none hq
      subst this
      refine ⟨[], ?_, List.Perm.refl _, List.Pairwise.nil⟩
      simp [FlushAll_loop, Buffer.get_oldest_present_page_descriptor, oldest_of, sweep_events]
    | some pd =>
      have hmem := oldest_of_mem hq
      have hlen : (present.erase pd).length < fuel := by
        rw [List.length_erase_of_mem hmem]
        have : 0 < present.length := List.length_pos_of_mem hmem
        omega
      obtain ⟨ds, hrun, hperm, hsorted⟩ :=
        ih { buffer := { present := present.erase pd, locked := locked }
             m_store := m_store
             flushers := send_work fl (make_work m_store pd) } hlen
      refine ⟨pd :: ds, ?_, ?_, ?_⟩
      · simp only [FlushAll_loop, Buffer.get_oldest_present_page_descriptor, hq]
        simp only at hrun
        rw [hrun]
        simp [sweep_events]
      · exact (List.Perm.cons pd hperm).trans (List.perm_cons_erase hmem).symm
      · refine List.Pairwise.cons ?_ hsorted
        intro x hx
        exact oldest_of_older hq x (List.mem_of_mem_erase (hperm.subset hx))

theorem sent_sweep_events (m_store : Store) (ds : List PageDescriptor) :
    sent (sweep_events m_store ds) = ds.map (make_work m_store) := by
  induction ds with
  | nil => rfl
  | cons pd ds ih => simp [sweep_events, sent, ih]

theorem queries_sweep_events (m_store : Store) (ds : List PageDescriptor) :
    queries (sweep_events m_store ds) = ds.map some ++ [none] := by
  induction ds with
  | nil => rfl
  | cons pd ds ih => simp [sweep_events, queries, ih]

theorem sent_append (xs ys : List Event) : sent (xs ++ ys) = sent xs ++ sent ys := by
  induction xs with
  | nil => rfl
  | cons e xs ih => cases e <;> simp [sent, ih]

theorem queries_append (xs ys : List Event) :
    queries (xs ++ ys) = queries xs ++ queries ys := by
  induction xs with
  | nil => rfl
  | cons e xs ih => cases e <;> simp [queries, ih]

/-- What `FlushAll` does when the lock is free and the fuel exceeds the
number of present pages. -/
theorem FlushAll_spec {F : Type} (send_work : F → WorkItem → F) (fuel : Nat)
    (pf : PageFlusher F) (hfree : pf.buffer.locked = false)
    (hfuel : pf.buffer.present.length < fuel) :
    ∃ ds : List PageDescriptor,
      FlushAll send_work fuel pf =
        some ({ buffer := { present := [], locked := false }
                m_store := pf.m_store
                flushers := (ds.map (make_work pf.m_store)).foldl send_work pf.flushers },
              Event.lock :: (sweep_events pf.m_store ds ++ [Event.unlock])) ∧
      ds.Perm pf.buffer.present ∧
      ds.Pairwise (fun p q => older p q = true) := by
  obtain ⟨⟨present, locked⟩, m_store, fl⟩ := pf
  simp only at hfree hfuel
  subst hfree
  obtain ⟨ds, hrun, hperm, hsorted⟩ :=
    FlushAll_loop_spec send_work fuel
      { buffer := { present := present, locked := true }, m_store := m_store, flushers := fl }
      hfuel
  refine ⟨ds, ?_, hperm, hsorted⟩
  simp only at hrun
  simp [FlushAll, Buffer.lock, hrun, Buffer.unlock]

theorem mem_sent_sweep_events {m_store : Store} {ds : List PageDescriptor} {w : WorkItem}
    (h : w ∈ sent (sweep_events m_store ds)) :
    w.store = if w.page_desc.page_is_dirty then some m_store else none := by
  rw [sent_sweep_events] at h
  obtain ⟨pd, _, rfl⟩ := List.mem_map.1 h
  rfl

theorem sent_FlushAll_events (m_store : Store) (ds : List PageDescriptor) :
    sent (Event.lock :: (sweep_events m_store ds ++ [Event.unlock])) =
      ds.map (make_work m_store) := by
  simp [sent, sent_append, sent_sweep_events]

theorem queries_FlushAll_events (m_store : Store) (ds : List PageDescriptor) :
    queries (Event.lock :: (sweep_events m_store ds ++ [Event.unlock])) =
      ds.map some ++ [none] := by
  simp [queries, queries_append, queries_sweep_events]

theorem map_page_desc_make_work (m_store : Store) (ds : List PageDescriptor) :
    (ds.map (make_work m_store)).map WorkItem.page_desc = ds := by
  induction ds with
  | nil => rfl
  | cons pd ds ih =>
    rw [List.map_cons, List.map_cons, ih]
    rfl

/-- The loop of `FlushAll` does not return when the fuel does not exceed the
number of present pages: each present page costs one query, and one more
query is needed to find the buffer empty. -/
theorem FlushAll_loop_short {F : Type} (send_work : F → WorkItem → F) :
    ∀ (fuel : Nat) (pf : PageFlusher F), fuel ≤ pf.buffer.present.length →
      FlushAll_loop send_work fuel pf = none := by
  intro fuel
  induction fuel with
  | zero => intro pf _; rfl
  | succ fuel ih =>
    intro pf h
    obtain ⟨⟨present, locked⟩, m_store, fl⟩ := pf
    simp only at h
    cases hq : oldest_of present with
    | none =>
      have := oldest_of_eq_none hq
      subst this
      simp at h
    | some pd =>
      have hmem := oldest_of_mem hq
      have hlen : fuel ≤ (present.erase pd).length := by
        rw [List.length_erase_of_mem hmem]
        omega
      have := ih { buffer := { present := present.erase pd, locked := locked }
                   m_store := m_store
                   flushers := send_work fl (make_work m_store pd) } hlen
      simp only [FlushAll_loop, Buffer.get_oldest_present_page_descriptor, hq]
      simp only at this
      rw [this]

theorem sweep_events_no_lock (m_store : Store) (ds : List PageDescriptor) :
    ∀ e ∈ sweep_events m_store ds, e ≠ Event.lock ∧ e ≠ Event.unlock := by
  induction ds with
  | nil => intro e he; simp [sweep_events] at he; subst he; simp
  | cons pd ds ih =>
    intro e he
    simp only [sweep_events, List.mem_cons] at he
    rcases he with rfl | rfl | he
    · simp
    · simp
    · exact ih e he

theorem sweep_events_getLast (m_store : Store) (ds : List PageDescriptor) :
    (sweep_events m_store ds).getLast? = some (Event.query none) := by
  induction ds with
  | nil => rfl
  | cons pd ds ih =>
    cases h : sweep_events m_store ds with
    | nil => rw [h] at ih; simp at ih
    | cons e es =>
      rw [h] at ih
      simp only [sweep_events, h]
      rw [List.getLast?_cons_cons, List.getLast?_cons_cons]
      exact ih

theorem sweep_events_kind (m_store : Store) (ds : List PageDescriptor) :
    ∀ e ∈ sweep_events m_store ds, (∃ r, e = Event.query r) ∨ (∃ w, e = Event.send_work w) := by
  induction ds with
  | nil => intro e he; simp [sweep_events] at he; exact Or.inl ⟨none, he⟩
  | cons pd ds ih =>
    intro e he
    simp only [sweep_events, List.mem_cons] at he
    rcases he with rfl | rfl | he
    · exact Or.inl ⟨_, rfl⟩
    · exact Or.inr ⟨_, rfl⟩
    · exact ih e he

theorem countP_store_make_work (m_store : Store) (ds : List PageDescriptor) :
    (ds.map (make_work m_store)).countP (fun w => w.store == some m_store) =
      ds.countP (fun p => p.dirty) := by
  induction ds with
  | nil => rfl
  | cons pd ds ih =>
    rw [List.map_cons, List.countP_cons, List.countP_cons, ih]
    cases hd : pd.dirty <;> simp [make_work, PageDescriptor.page_is_dirty, hd]

theorem countP_null_make_work (m_store : Store) (ds : List PageDescriptor) :
    (ds.map (make_work m_store)).countP (fun w => w.store == none) =
      ds.countP (fun p => !p.dirty) := by
  induction ds with
  | nil => rfl
  | cons pd ds ih =>
    rw [List.map_cons, List.countP_cons, List.countP_cons, ih]
    cases hd : pd.dirty <;> simp [make_work, PageDescriptor.page_is_dirty, hd]

theorem filter_addr_make_work (m_store : Store) (a : Nat) (ds : List PageDescriptor) :
    (ds.map (make_work m_store)).filter (fun w => w.page_desc.page_addr == a) =
      (ds.filter (fun p => p.page_addr == a)).map (make_work m_store) := by
  induction ds with
  | nil => rfl
  | cons pd ds ih =>
    rw [List.map_cons, List.filter_cons, List.filter_cons, ih]
    cases h : pd.page_addr == a <;> simp [make_work, h]

/-- The events of the loop of `FlushAll` do not depend on what `send_work`
does with the items. -/
theorem FlushAll_loop_events_indep {F G : Type} (sw₁ : F → WorkItem → F)
    (sw₂ : G → WorkItem → G) :
    ∀ (fuel : Nat) (b : Buffer) (m_store : Store) (f : F) (g : G),
      (FlushAll_loop sw₁ fuel ⟨b, m_store, f⟩).map Prod.snd =
        (FlushAll_loop sw₂ fuel ⟨b, m_store, g⟩).map Prod.snd := by
  intro fuel
  induction fuel with
  | zero => intro b m_store f g; rfl
  | succ fuel ih =>
    intro b m_store f g
    simp only [FlushAll_loop, Buffer.get_oldest_present_page_descriptor]
    cases hq : oldest_of b.present with
    | none => rfl
    | some pd =>
      have := ih { b with present := b.present.erase pd } m_store
        (sw₁ f (make_work m_store pd)) (sw₂ g (make_work m_store pd))
      simp only
      cases h₁ : FlushAll_loop sw₁ fuel
          ⟨{ b with present := b.present.erase pd }, m_store, sw₁ f (make_work m_store pd)⟩ <;>
        cases h₂ : FlushAll_loop sw₂ fuel
          ⟨{ b with present := b.present.erase pd }, m_store, sw₂ g (make_work m_store pd)⟩ <;>
        rw [h₁, h₂] at this <;> simp at this ⊢
      exact this

/-- The events of `FlushAll` do not depend on what `send_work` does with the
items. -/
theorem FlushAll_events_indep {F G : Type} (sw₁ : F → WorkItem → F)
    (sw₂ : G → WorkItem → G) (fuel : Nat) (b : Buffer) (m_store : Store) (f : F) (g : G) :
    (FlushAll sw₁ fuel ⟨b, m_store, f⟩).map Prod.snd =
      (FlushAll sw₂ fuel ⟨b, m_store, g⟩).map Prod.snd := by
  simp only [FlushAll]
  cases hl : b.lock with
  | none => rfl
  | some b' =>
    have := FlushAll_loop_events_indep sw₁ sw₂ fuel b' m_store f g
    simp only
    cases h₁ : FlushAll_loop sw₁ fuel ⟨b', m_store, f⟩ <;>
      cases h₂ : FlushAll_loop sw₂ fuel ⟨b', m_store, g⟩ <;>
      rw [h₁, h₂] at this <;> simp at this ⊢
    exact this

/-! ## The claims about `FlushAll` -/

/-- C1: called with the lock free and enough fuel, `FlushAll` returns, and
the work items it passes to `send_work` are one per resident page, oldest
first: their descriptors are a rearrangement of the resident pages, each one
older than all that follow, in the order in which
`get_oldest_present_page_descriptor` yielded them; the `store` of an item is
`m_store` if its page is dirty and null otherwise; the Flushers received
exactly these items in this order. -/
theorem FlushAll_sends_resident_pages_oldest_first {F : Type}
    (send_work : F → WorkItem → F) (fuel : Nat) (pf : PageFlusher F)
    (hfree : pf.buffer.locked = false)
    (hfuel : pf.buffer.present.length < fuel) :
    ∃ (pf' : PageFlusher F) (evs : List Event),
      FlushAll send_work fuel pf = some (pf', evs) ∧
      ((sent evs).map WorkItem.page_desc).Perm pf.buffer.present ∧
      ((sent evs).map WorkItem.page_desc).Pairwise (fun p q => older p q = true) ∧
      queries evs = (sent evs).map (fun w => some w.page_desc) ++ [none] ∧
      (∀ w ∈ sent evs,
        w.store = if w.page_desc.page_is_dirty then some pf.m_store else none) ∧
      pf'.flushers = (sent evs).foldl send_work pf.flushers := by
  obtain ⟨ds, hrun, hperm, hsorted⟩ := FlushAll_spec send_work fuel pf hfree hfuel
  refine ⟨_, _, hrun, ?_, ?_, ?_, ?_, ?_⟩
  · rw [sent_FlushAll_events, map_page_desc_make_work]; exact hperm
  · rw [sent_FlushAll_events, map_page_desc_make_work]; exact hsorted
  · rw [sent_FlushAll_events, queries_FlushAll_events, List.map_map]
    rfl
  · intro w hw
    rw [sent_FlushAll_events] at hw
    obtain ⟨pd, _, rfl⟩ := List.mem_map.1 hw
    rfl
  · rw [sent_FlushAll_events]

/-- Witness of C1 on the example object with three units of fuel. -/
theorem FlushAll_sends_resident_pages_oldest_first_witness :
    example_flusher.buffer.locked = false ∧
    example_flusher.buffer.present.length < 3 ∧
    ∃ (pf' : PageFlusher (List WorkItem)) (evs : List Event),
      FlushAll record_work 3 example_flusher = some (pf', evs) ∧
      ((sent evs).map WorkItem.page_desc).Perm example_flusher.buffer.present ∧
      ((sent evs).map WorkItem.page_desc).Pairwise (fun p q => older p q = true) ∧
      queries evs = (sent evs).map (fun w => some w.page_desc) ++ [none] ∧
      (∀ w ∈ sent evs,
        w.store = if w.page_desc.page_is_dirty then some example_flusher.m_store
          else none) ∧
      pf'.flushers = (sent evs).foldl record_work example_flusher.flushers :=
  ⟨rfl, by decide,
    FlushAll_sends_resident_pages_oldest_first record_work 3 example_flusher rfl
      (by decide)⟩

/-- C2: with the lock free and no insertion during the sweep, the loop of
`FlushAll` over a buffer of `n` resident pages does not finish within `n`
queries and finishes with query `n + 1`: the queries return `n` descriptors
and then none, every page resident at the start is returned exactly as often
as it is resident (once), and the buffer then reports no resident page. -/
theorem FlushAll_visits_each_page_once {F : Type}
    (send_work : F → WorkItem → F) (pf : PageFlusher F)
    (hfree : pf.buffer.locked = false) :
    (∀ fuel, fuel ≤ pf.buffer.present.length → FlushAll send_work fuel pf = none) ∧
    ∀ fuel, pf.buffer.present.length < fuel →
      ∃ (pf' : PageFlusher F) (evs : List Event) (ds : List PageDescriptor),
        FlushAll send_work fuel pf = some (pf', evs) ∧
        queries evs = ds.map some ++ [none] ∧
        ds.length = pf.buffer.present.length ∧
        (∀ pd, ds.count pd = pf.buffer.present.count pd) ∧
        pf'.buffer.present = [] := by
  constructor
  · intro fuel hfuel
    obtain ⟨⟨present, locked⟩, m_store, fl⟩ := pf
    simp only at hfree hfuel
    subst hfree
    have := FlushAll_loop_short send_work fuel
      { buffer := { present := present, locked := true }, m_store := m_store, flushers := fl }
      hfuel
    simp only at this
    simp [FlushAll, Buffer.lock, this]
  · intro fuel hfuel
    obtain ⟨ds, hrun, hperm, _⟩ := FlushAll_spec send_work fuel pf hfree hfuel
    refine ⟨_, _, ds, hrun, queries_FlushAll_events _ _, hperm.length_eq, ?_, rfl⟩
    intro pd
    exact hperm.count_eq pd

/-- Witness of C2 on the example object. -/
theorem FlushAll_visits_each_page_once_witness :
    example_flusher.buffer.locked = false ∧
    ((∀ fuel, fuel ≤ example_flusher.buffer.present.length →
        FlushAll record_work fuel example_flusher = none) ∧
     ∀ fuel, example_flusher.buffer.present.length < fuel →
      ∃ (pf' : PageFlusher (List WorkItem)) (evs : List Event)
        (ds : List PageDescriptor),
        FlushAll record_work fuel example_flusher = some (pf', evs) ∧
        queries evs = ds.map some ++ [none] ∧
        ds.length = example_flusher.buffer.present.length ∧
        (∀ pd, ds.count pd = example_flusher.buffer.present.count pd) ∧
        pf'.buffer.present = []) :=
  ⟨rfl, FlushAll_visits_each_page_once record_work example_flusher rfl⟩

/-- C8: called with the lock free and enough fuel, `FlushAll` returns with
the lock free, and its events are one `lock`, then the queries and
submissions of the sweep, none of which is a `lock` or an `unlock` and the
last of which is the query that finds no page, then one `unlock`; this holds
for every buffer, the empty one included. -/
theorem FlushAll_lock_balanced {F : Type}
    (send_work : F → WorkItem → F) (fuel : Nat) (pf : PageFlusher F)
    (hfree : pf.buffer.locked = false)
    (hfuel : pf.buffer.present.length < fuel) :
    ∃ (pf' : PageFlusher F) (evs : List Event),
      FlushAll send_work fuel pf = some (pf', Event.lock :: (evs ++ [Event.unlock])) ∧
      (∀ e ∈ evs, e ≠ Event.lock ∧ e ≠ Event.unlock) ∧
      evs.getLast? = some (Event.query none) ∧
      (Event.lock :: (evs ++ [Event.unlock])).count Event.lock = 1 ∧
      (Event.lock :: (evs ++ [Event.unlock])).count Event.unlock = 1 ∧
      pf'.buffer.locked = false := by
  obtain ⟨ds, hrun, _, _⟩ := FlushAll_spec send_work fuel pf hfree hfuel
  have hno := sweep_events_no_lock pf.m_store ds
  have h1 : (sweep_events pf.m_store ds).count Event.lock = 0 :=
    List.count_eq_zero.2 (fun h => (hno _ h).1 rfl)
  have h2 : (sweep_events pf.m_store ds).count Event.unlock = 0 :=
    List.count_eq_zero.2 (fun h => (hno _ h).2 rfl)
  refine ⟨_, sweep_events pf.m_store ds, hrun, hno, sweep_events_getLast _ _, ?_, ?_, rfl⟩
  · simp [List.count_cons, List.count_append, h1]
  · simp [List.count_cons, List.count_append, h2]

/-- Witness of C8 on the empty buffer with one unit of fuel. -/
theorem FlushAll_lock_balanced_witness :
    (⟨⟨[], false⟩, 7, []⟩ : PageFlusher (List WorkItem)).buffer.locked = false ∧
    (⟨⟨[], false⟩, 7, []⟩ : PageFlusher (List WorkItem)).buffer.present.length < 1 ∧
    ∃ (pf' : PageFlusher (List WorkItem)) (evs : List Event),
      FlushAll record_work 1 ⟨⟨[], false⟩, 7, []⟩ =
        some (pf', Event.lock :: (evs ++ [Event.unlock])) ∧
      (∀ e ∈ evs, e ≠ Event.lock ∧ e ≠ Event.unlock) ∧
      evs.getLast? = some (Event.query none) ∧
      (Event.lock :: (evs ++ [Event.unlock])).count Event.lock = 1 ∧
      (Event.lock :: (evs ++ [Event.unlock])).count Event.unlock = 1 ∧
      pf'.buffer.locked = false :=
  ⟨rfl, by decide,
    FlushAll_lock_balanced record_work 1 ⟨⟨[], false⟩, 7, []⟩ rfl (by decide)⟩

/-- C3: with the lock free and enough fuel, the destructor returns, and its
events are those of a complete `FlushAll` followed by the delete of the
Flushers pool: before the delete, one work item per resident page has been
submitted, as many with the Store target as there are dirty pages and as many
without it as there are clean pages; afterward the buffer reports no
resident page. -/
theorem destroy_flushes_before_delete {F : Type}
    (send_work : F → WorkItem → F) (fuel : Nat) (pf : PageFlusher F)
    (hfree : pf.buffer.locked = false)
    (hfuel : pf.buffer.present.length < fuel) :
    ∃ (pf' : PageFlusher F) (evs : List Event),
      destroy send_work fuel pf = some (pf', evs ++ [Event.delete_flushers]) ∧
      FlushAll send_work fuel pf = some (pf', evs) ∧
      Event.delete_flushers ∉ evs ∧
      (sent evs).countP (fun w => w.store == some pf.m_store) =
        pf.buffer.present.countP (fun p => p.dirty) ∧
      (sent evs).countP (fun w => w.store == none) =
        pf.buffer.present.countP (fun p => !p.dirty) ∧
      (sent evs).length = pf.buffer.present.length ∧
      pf'.buffer.present = [] ∧
      pf'.buffer.get_oldest_present_page_descriptor = (none, pf'.buffer) := by
  obtain ⟨ds, hrun, hperm, _⟩ := FlushAll_spec send_work fuel pf hfree hfuel
  refine ⟨_, _, ?_, hrun, ?_, ?_, ?_, ?_, rfl, rfl⟩
  · simp [destroy, hrun]
  · intro h
    rcases List.mem_cons.1 h with h | h
    · cases h
    · rcases List.mem_append.1 h with h | h
      · rcases sweep_events_kind _ _ _ h with ⟨r, hr⟩ | ⟨w, hw⟩
        · cases hr
        · cases hw
      · rcases List.mem_singleton.1 h with h
        cases h
  · rw [sent_FlushAll_events, countP_store_make_work]
    exact hperm.countP_eq _
  · rw [sent_FlushAll_events, countP_null_make_work]
    exact hperm.countP_eq _
  · rw [sent_FlushAll_events, List.length_map]
    exact hperm.length_eq

/-- Witness of C3 on the example object. -/
theorem destroy_flushes_before_delete_witness :
    example_flusher.buffer.locked = false ∧
    example_flusher.buffer.present.length < 3 ∧
    ∃ (pf' : PageFlusher (List WorkItem)) (evs : List Event),
      destroy record_work 3 example_flusher =
        some (pf', evs ++ [Event.delete_flushers]) ∧
      FlushAll record_work 3 example_flusher = some (pf', evs) ∧
      Event.delete_flushers ∉ evs ∧
      (sent evs).countP (fun w => w.store == some example_flusher.m_store) =
        example_flusher.buffer.present.countP (fun p => p.dirty) ∧
      (sent evs).countP (fun w => w.store == none) =
        example_flusher.buffer.present.countP (fun p => !p.dirty) ∧
      (sent evs).length = example_flusher.buffer.present.length ∧
      pf'.buffer.present = [] ∧
      pf'.buffer.get_oldest_present_page_descriptor = (none, pf'.buffer) :=
  ⟨rfl, by decide,
    destroy_flushes_before_delete record_work 3 example_flusher rfl (by decide)⟩

/-- C6: when `A` is the resident page of its address and is dirty, two calls
of `FlushAll` that run one after the other (each with the lock free at its
start and enough fuel) both return, the items submitted for the address of
`A` in both sweeps together are exactly one, with `m_store` as its Store
target, and the second sweep submits nothing at all. -/
theorem second_FlushAll_finds_page_absent {F : Type}
    (send_work : F → WorkItem → F) (fuel : Nat) (pf : PageFlusher F)
    (A : PageDescriptor)
    (hfree : pf.buffer.locked = false)
    (hfuel : pf.buffer.present.length < fuel)
    (hA : pf.buffer.present.filter (fun p => p.page_addr == A.page_addr) = [A])
    (hdirty : A.dirty = true) :
    ∃ (pf₁ pf₂ : PageFlusher F) (evs₁ evs₂ : List Event),
      FlushAll send_work fuel pf = some (pf₁, evs₁) ∧
      FlushAll send_work fuel pf₁ = some (pf₂, evs₂) ∧
      (sent (evs₁ ++ evs₂)).filter (fun w => w.page_desc.page_addr == A.page_addr) =
        [{ page_desc := A, store := some pf.m_store }] ∧
      sent evs₂ = [] := by
  obtain ⟨ds, hrun, hperm, _⟩ := FlushAll_spec send_work fuel pf hfree hfuel
  have hpos : 0 < fuel := by omega
  obtain ⟨ds₂, hrun₂, hperm₂, _⟩ :=
    FlushAll_spec send_work fuel
      { buffer := { present := [], locked := false }
        m_store := pf.m_store
        flushers := (ds.map (make_work pf.m_store)).foldl send_work pf.flushers }
      rfl hpos
  have hds₂ : ds₂ = [] := List.Perm.eq_nil hperm₂
  subst hds₂
  refine ⟨_, _, _, _, hrun, hrun₂, ?_, ?_⟩
  · rw [sent_append, sent_FlushAll_events, sent_FlushAll_events]
    simp only [List.map_nil, List.append_nil]
    rw [filter_addr_make_work]
    have hf : (ds.filter (fun p => p.page_addr == A.page_addr)).Perm [A] := by
      rw [← hA]
      exact hperm.filter _
    rw [List.perm_singleton.1 hf]
    simp [make_work, PageDescriptor.page_is_dirty, hdirty]
  · rw [sent_FlushAll_events]
    rfl

/-- Witness of C6 on the example object, for its dirty page. -/
theorem second_FlushAll_finds_page_absent_witness :
    example_flusher.buffer.locked = false ∧
    example_flusher.buffer.present.length < 3 ∧
    example_flusher.buffer.present.filter (fun p => p.page_addr == 4096) =
      [⟨4096, 1, true⟩] ∧
    ∃ (pf₁ pf₂ : PageFlusher (List WorkItem)) (evs₁ evs₂ : List Event),
      FlushAll record_work 3 example_flusher = some (pf₁, evs₁) ∧
      FlushAll record_work 3 pf₁ = some (pf₂, evs₂) ∧
      (sent (evs₁ ++ evs₂)).filter (fun w => w.page_desc.page_addr == 4096) =
        [{ page_desc := ⟨4096, 1, true⟩, store := some 7 }] ∧
      sent evs₂ = [] :=
  ⟨rfl, by decide, by decide,
    second_FlushAll_finds_page_absent record_work 3 example_flusher ⟨4096, 1, true⟩
      rfl (by decide) (by decide) rfl⟩

theorem queries_replicate_sleep (k : Nat) :
    queries (List.replicate k (Event.sleep 1)) = [] := by
  induction k with
  | zero => rfl
  | succ k ih => simpa [List.replicate_succ, queries] using ih

theorem sent_replicate_sleep (k : Nat) :
    sent (List.replicate k (Event.sleep 1)) = [] := by
  induction k with
  | zero => rfl
  | succ k ih => simpa [List.replicate_succ, sent] using ih

/-- C4, as stated, fails: with a buffer of any content, a worker loop that
finds the stop request at its third test runs two iterations, and its only
events are two `sleep(1)`: no query of the buffer, no submission, no lock. -/
theorem ThreadEntry_two_iterations_no_sweep :
    ThreadEntry (fun i => decide (2 ≤ i)) 3 0 = some [Event.sleep 1, Event.sleep 1] ∧
    queries [Event.sleep 1, Event.sleep 1] = [] ∧
    sent [Event.sleep 1, Event.sleep 1] = [] ∧
    Event.lock ∉ [Event.sleep 1, Event.sleep 1] := by
  decide

/-- C4, amended: the PageFlusher is a one-thread worker pool, and a worker
loop that first finds the stop request at its test number `k` (counted from
0) returns after `k` iterations, each of which only sleeps for 1 second: the
loop queries nothing and submits nothing. -/
theorem ThreadEntry_only_sleeps (time_to_stop : Nat → Bool) (k i : Nat)
    (hstop : time_to_stop (i + k) = true)
    (hrun : ∀ j, j < k → time_to_stop (i + j) = false)
    (instance_ : PageRegion) (num_flushers : Nat) (buffer : Buffer) (store : Store) :
    ThreadEntry time_to_stop (k + 1) i = some (List.replicate k (Event.sleep 1)) ∧
    queries (List.replicate k (Event.sleep 1)) = [] ∧
    sent (List.replicate k (Event.sleep 1)) = [] ∧
    (construct instance_ num_flushers buffer store).pool_threads = 1 := by
  refine ⟨?_, ?_, ?_, rfl⟩
  · induction k generalizing i with
    | zero =>
      simp only [Nat.add_zero] at hstop
      simp [ThreadEntry, hstop]
    | succ k ih =>
      have h0 : time_to_stop i = false := by
        have := hrun 0 (Nat.succ_pos k)
        simpa using this
      have hstop' : time_to_stop (i + 1 + k) = true := by
        have : i + 1 + k = i + (k + 1) := by omega
        rw [this]; exact hstop
      have hrun' : ∀ j, j < k → time_to_stop (i + 1 + j) = false := by
        intro j hj
        have : i + 1 + j = i + (j + 1) := by omega
        rw [this]
        exact hrun (j + 1) (by omega)
      have := ih (i + 1) hstop' hrun'
      rw [ThreadEntry]
      simp only [h0, Bool.false_eq_true, if_false, this, List.replicate_succ]
  · exact queries_replicate_sleep k
  · exact sent_replicate_sleep k

/-- Witness of the amended C4: stop found at the third test. -/
theorem ThreadEntry_only_sleeps_witness :
    (fun i => decide (2 ≤ i)) (0 + 2) = true ∧
    (∀ j, j < 2 → (fun i => decide (2 ≤ i)) (0 + j) = false) ∧
    (ThreadEntry (fun i => decide (2 ≤ i)) (2 + 1) 0 =
        some (List.replicate 2 (Event.sleep 1)) ∧
      queries (List.replicate 2 (Event.sleep 1)) = [] ∧
      sent (List.replicate 2 (Event.sleep 1)) = [] ∧
      (construct ⟨2⟩ 4 ⟨[], false⟩ 7).pool_threads = 1) :=
  ⟨by decide, by decide,
    ThreadEntry_only_sleeps (fun i => decide (2 ≤ i)) 2 0 (by decide) (by decide)
      ⟨2⟩ 4 ⟨[], false⟩ 7⟩

/-- C5, as stated, fails: constructed with `num_flushers = 4` while the
`PageRegion` singleton answers 2, the PageFlusher makes a Flushers pool of 2
workers. -/
theorem construct_ignores_num_flushers_example :
    (construct ⟨2⟩ 4 ⟨[], false⟩ 7).flusher_workers = 2 ∧
    (construct ⟨2⟩ 4 ⟨[], false⟩ 7).flusher_workers ≠ 4 ∧
    (construct ⟨2⟩ 4 ⟨[], false⟩ 7).events =
      [Event.new_flushers 2, Event.start_thread_pool 1] := by
  decide

/-- C5, amended: the Flushers pool is constructed with the number of workers
that `PageRegion::getInstance()->get_num_flushers()` returns, whatever value
`num_flushers` is given to the constructor. -/
theorem construct_sizes_pool_by_PageRegion (instance_ : PageRegion)
    (num_flushers : Nat) (buffer : Buffer) (store : Store) :
    (construct instance_ num_flushers buffer store).flusher_workers =
      instance_.num_flushers ∧
    Event.new_flushers instance_.num_flushers ∈
      (construct instance_ num_flushers buffer store).events ∧
    ∀ n : Nat, construct instance_ n buffer store =
      construct instance_ num_flushers buffer store := by
  refine ⟨rfl, ?_, fun _ => rfl⟩
  simp [construct]

end Umap

namespace utility

/-! ## `map_in_file` -/

theorem or_and_self_right (a b : Nat) : (a ||| b) &&& b = b := by
  apply Nat.eq_of_testBit_eq
  intro i
  simp only [Nat.testBit_and, Nat.testBit_or]
  cases a.testBit i <;> cases b.testBit i <;> rfl

theorem to_off_t_of_lt {n : Nat} (h : n < 2 ^ 63) : to_off_t n = (n : Int) := by
  have h' : n % 2 ^ 64 = n := Nat.mod_eq_of_lt (by omega)
  unfold to_off_t
  rw [h', if_pos h]

theorem map_region_calls (c : Consts) (env : Env) (usemmap : Bool) (numbytes : Nat)
    (fd : Int) :
    ∀ e ∈ (map_region c env usemmap numbytes fd).2,
      e.is_unlink = false ∧ e.is_fallocate = false := by
  intro e he
  unfold map_region at he
  cases usemmap <;> simp only [Bool.false_eq_true, if_false, if_true] at he <;>
    split at he <;> simp at he <;> rcases he with rfl | rfl <;> exact ⟨rfl, rfl⟩

theorem check_size_calls (c : Consts) (env : Env) (usemmap : Bool) (numbytes : Nat)
    (fd : Int) :
    ∀ e ∈ (check_size c env usemmap numbytes fd).2,
      e.is_unlink = false ∧ e.is_fallocate = false := by
  intro e he
  unfold check_size at he
  split at he
  · simp at he; rcases he with rfl | rfl <;> exact ⟨rfl, rfl⟩
  · split at he
    · simp at he; rcases he with rfl | rfl <;> exact ⟨rfl, rfl⟩
    · rcases List.mem_cons.1 he with rfl | he
      · exact ⟨rfl, rfl⟩
      · exact map_region_calls c env usemmap numbytes fd e he

theorem open_flags_append (xs ys : List Call) :
    open_flags (xs ++ ys) = open_flags xs ++ open_flags ys := by
  induction xs with
  | nil => rfl
  | cons e xs ih => cases e <;> simp [open_flags, ih]

theorem open_flags_map_region (c : Consts) (env : Env) (usemmap : Bool) (numbytes : Nat)
    (fd : Int) : open_flags (map_region c env usemmap numbytes fd).2 = [] := by
  unfold map_region
  cases usemmap <;> simp only [Bool.false_eq_true, if_false, if_true] <;>
    split <;> rfl

theorem open_flags_check_size (c : Consts) (env : Env) (usemmap : Bool) (numbytes : Nat)
    (fd : Int) : open_flags (check_size c env usemmap numbytes fd).2 = [] := by
  unfold check_size
  split
  · rfl
  · split
    · rfl
    · simp only [open_flags]
      exact open_flags_map_region c env usemmap numbytes fd

/-- The run of `map_in_file` when `initonly || !noinit` holds. -/
theorem map_in_file_init (c : Consts) (env : Env) (filename : String)
    (initonly noinit usemmap : Bool) (numbytes : Nat)
    (hinit : (initonly || !noinit) = true) (hcreat : c.O_CREAT ≠ 0) :
    map_in_file c env filename initonly noinit usemmap numbytes =
      if env.open_fd (base_opts c ||| c.O_CREAT) = -1 then
        (NULL, unlink_step c env filename initonly noinit ++
          [Call.open_ filename (base_opts c ||| c.O_CREAT) (c.S_IRUSR ||| c.S_IWUSR)] ++
          [Call.perror_open])
      else if env.fallocate_ret ≠ 0 then
        (NULL, unlink_step c env filename initonly noinit ++
          [Call.open_ filename (base_opts c ||| c.O_CREAT) (c.S_IRUSR ||| c.S_IWUSR)] ++
          [Call.posix_fallocate (env.open_fd (base_opts c ||| c.O_CREAT)) 0
            (to_off_t numbytes), Call.perror_fallocate])
      else
        ((check_size c env usemmap numbytes
            (env.open_fd (base_opts c ||| c.O_CREAT))).1,
          unlink_step c env filename initonly noinit ++
          [Call.open_ filename (base_opts c ||| c.O_CREAT) (c.S_IRUSR ||| c.S_IWUSR)] ++
          Call.posix_fallocate (env.open_fd (base_opts c ||| c.O_CREAT)) 0
            (to_off_t numbytes) ::
          (check_size c env usemmap numbytes
            (env.open_fd (base_opts c ||| c.O_CREAT))).2) := by
  have hopts : open_opts c initonly noinit = base_opts c ||| c.O_CREAT := by
    simp [open_opts, hinit]
  have hbit : (base_opts c ||| c.O_CREAT) &&& c.O_CREAT ≠ 0 := by
    rw [or_and_self_right]; exact hcreat
  unfold map_in_file
  simp only [hopts]
  split
  · rfl
  · rfl

/-- The run of `map_in_file` when `initonly || !noinit` does not hold. -/
theorem map_in_file_noinit (c : Consts) (env : Env) (filename : String)
    (initonly noinit usemmap : Bool) (numbytes : Nat)
    (hinit : (initonly || !noinit) = false)
    (hdisj : base_opts c &&& c.O_CREAT = 0) :
    map_in_file c env filename initonly noinit usemmap numbytes =
      if env.open_fd (base_opts c) = -1 then
        (NULL, [Call.open_ filename (base_opts c) (c.S_IRUSR ||| c.S_IWUSR),
          Call.perror_open])
      else
        ((check_size c env usemmap numbytes (env.open_fd (base_opts c))).1,
          Call.open_ filename (base_opts c) (c.S_IRUSR ||| c.S_IWUSR) ::
          (check_size c env usemmap numbytes (env.open_fd (base_opts c))).2) := by
  have hopts : open_opts c initonly noinit = base_opts c := by
    simp [open_opts, hinit]
  have hstep : unlink_step c env filename initonly noinit = [] := by
    simp [unlink_step, hinit]
  unfold map_in_file
  simp only [hopts, hstep, hdisj]
  split
  · rfl
  · simp

/-- C9: `map_in_file` initialises exactly when `initonly || !noinit`.  In
that case its calls start with the message and `unlink`, followed by a report
only when `unlink` failed with an error other than `ENOENT`, then `open` with
`O_CREAT` added to `O_RDWR | O_LARGEFILE | O_DIRECT` (whatever `unlink`
returned); when `open` succeeds the next call is `posix_fallocate(fd, 0,
numbytes)`, and when that fails the result is `NULL` and nothing else is
called.  Otherwise there is no `unlink` and no `posix_fallocate`, and the one
`open` has the flags `O_RDWR | O_LARGEFILE | O_DIRECT`, without `O_CREAT`. -/
theorem map_in_file_initialises_iff (c : Consts) (env : Env) (filename : String)
    (initonly noinit usemmap : Bool) (numbytes : Nat)
    (hcreat : c.O_CREAT ≠ 0) (hdisj : base_opts c &&& c.O_CREAT = 0) :
    ((initonly || !noinit) = true →
      ∃ rest : List Call,
        (map_in_file c env filename initonly noinit usemmap numbytes).2 =
          Call.cout_deleting filename :: Call.unlink filename ::
            ((match env.unlink_errno with
              | none => []
              | some eno => if eno ≠ c.ENOENT then [Call.cerr_unlink eno] else []) ++
            Call.open_ filename (c.O_RDWR ||| c.O_LARGEFILE ||| c.O_DIRECT ||| c.O_CREAT)
              (c.S_IRUSR ||| c.S_IWUSR) :: rest) ∧
        (env.open_fd (c.O_RDWR ||| c.O_LARGEFILE ||| c.O_DIRECT ||| c.O_CREAT) ≠ -1 →
          ∃ rest' : List Call,
            rest = Call.posix_fallocate
              (env.open_fd (c.O_RDWR ||| c.O_LARGEFILE ||| c.O_DIRECT ||| c.O_CREAT)) 0
              (to_off_t numbytes) :: rest' ∧
            (numbytes < 2 ^ 63 → to_off_t numbytes = (numbytes : Int)) ∧
            (env.fallocate_ret ≠ 0 →
              (map_in_file c env filename initonly noinit usemmap numbytes).1 = NULL ∧
              rest' = [Call.perror_fallocate]))) ∧
    ((initonly || !noinit) = false →
      (∀ e ∈ (map_in_file c env filename initonly noinit usemmap numbytes).2,
        e.is_unlink = false ∧ e.is_fallocate = false) ∧
      open_flags (map_in_file c env filename initonly noinit usemmap numbytes).2 =
        [c.O_RDWR ||| c.O_LARGEFILE ||| c.O_DIRECT] ∧
      (c.O_RDWR ||| c.O_LARGEFILE ||| c.O_DIRECT) &&& c.O_CREAT = 0) := by
  constructor
  · intro hinit
    rw [map_in_file_init c env filename initonly noinit usemmap numbytes hinit hcreat]
    have hstep : unlink_step c env filename initonly noinit =
        Call.cout_deleting filename :: Call.unlink filename ::
          (match env.unlink_errno with
            | none => []
            | some eno => if eno ≠ c.ENOENT then [Call.cerr_unlink eno] else []) := by
      simp [unlink_step, hinit]
    rw [hstep]
    change ∃ rest : List Call, _ ∧
      (env.open_fd (base_opts c ||| c.O_CREAT) ≠ -1 → _)
    by_cases hfd : env.open_fd (base_opts c ||| c.O_CREAT) = -1
    · refine ⟨[Call.perror_open], ?_, fun h => absurd hfd h⟩
      rw [if_pos hfd]
      simp [base_opts]
    · by_cases hfa : env.fallocate_ret ≠ 0
      · refine ⟨[Call.posix_fallocate (env.open_fd (base_opts c ||| c.O_CREAT)) 0
            (to_off_t numbytes), Call.perror_fallocate], ?_, fun _ => ⟨_, rfl, ?_, ?_⟩⟩
        · rw [if_neg hfd, if_pos hfa]
          simp [base_opts]
        · exact to_off_t_of_lt
        · intro _
          rw [if_neg hfd, if_pos hfa]
          exact ⟨rfl, rfl⟩
      · refine ⟨Call.posix_fallocate (env.open_fd (base_opts c ||| c.O_CREAT)) 0
            (to_off_t numbytes) ::
            (check_size c env usemmap numbytes
              (env.open_fd (base_opts c ||| c.O_CREAT))).2, ?_,
            fun _ => ⟨_, rfl, ?_, fun h => absurd h hfa⟩⟩
        · rw [if_neg hfd, if_neg hfa]
          simp [base_opts]
        · exact to_off_t_of_lt
  · intro hinit
    rw [map_in_file_noinit c env filename initonly noinit usemmap numbytes hinit hdisj]
    refine ⟨?_, ?_, hdisj⟩
    · intro e he
      split at he
      · simp at he; rcases he with rfl | rfl <;> exact ⟨rfl, rfl⟩
      · rcases List.mem_cons.1 he with rfl | he
        · exact ⟨rfl, rfl⟩
        · exact check_size_calls _ _ _ _ _ e he
    · split
      · rfl
      · simp only [open_flags]
        rw [open_flags_check_size]
        rfl

/-- Witness of C9 on Linux constants and the example run, initialising. -/
theorem map_in_file_initialises_iff_witness :
    linux.O_CREAT ≠ 0 ∧ base_opts linux &&& linux.O_CREAT = 0 ∧
    (map_in_file linux example_env "sortfile" false false false 4096).2 =
      [Call.cout_deleting "sortfile", Call.unlink "sortfile",
       Call.open_ "sortfile" 16450 384, Call.posix_fallocate 3 0 4096,
       Call.fstat 3, Call.umap 0 4096 3 2 3 0] ∧
    (open_flags (map_in_file linux example_env "sortfile" false true false 4096).2 =
      [linux.O_RDWR ||| linux.O_LARGEFILE ||| linux.O_DIRECT]) :=
  ⟨by decide, by decide, by decide,
    ((map_in_file_initialises_iff linux example_env "sortfile" false true false 4096
      (by decide) (by decide)).2 (by decide)).2.1⟩

theorem map_region_null_or (c : Consts) (env : Env) (usemmap : Bool) (numbytes : Nat)
    (fd : Int) :
    ((map_region c env usemmap numbytes fd).1 ≠ NULL →
      (usemmap = true →
        (map_region c env usemmap numbytes fd).1 = env.mmap_ret ∧
        env.mmap_ret ≠ c.MAP_FAILED ∧
        (map_region c env usemmap numbytes fd).2 =
          [Call.mmap NULL numbytes (c.PROT_READ ||| c.PROT_WRITE)
            (c.MAP_SHARED ||| c.MAP_NORESERVE) fd 0]) ∧
      (usemmap = false →
        (map_region c env usemmap numbytes fd).1 = env.umap_ret ∧
        env.umap_ret ≠ c.UMAP_FAILED ∧
        (map_region c env usemmap numbytes fd).2 =
          [Call.umap NULL numbytes (c.PROT_READ ||| c.PROT_WRITE) c.UMAP_PRIVATE fd 0])) ∧
    (usemmap = true → env.mmap_ret = c.MAP_FAILED →
      (map_region c env usemmap numbytes fd).1 = NULL) ∧
    (usemmap = false → env.umap_ret = c.UMAP_FAILED →
      (map_region c env usemmap numbytes fd).1 = NULL) := by
  unfold map_region
  cases usemmap
  · by_cases h : env.umap_ret = c.UMAP_FAILED <;> simp [h]
  · by_cases h : env.mmap_ret = c.MAP_FAILED <;> simp [h]

theorem unlink_step_no_map (c : Consts) (env : Env) (filename : String)
    (initonly noinit : Bool) :
    ∀ e ∈ unlink_step c env filename initonly noinit, e.is_map = false := by
  intro e he
  unfold unlink_step at he
  split at he
  · rcases List.mem_cons.1 he with rfl | he
    · rfl
    · rcases List.mem_cons.1 he with rfl | he
      · rfl
      · split at he
        · cases he
        · split at he
          · rcases List.mem_singleton.1 he with rfl
            rfl
          · cases he
  · cases he

theorem check_size_none (c : Consts) (env : Env) (usemmap : Bool) (numbytes : Nat)
    (fd : Int) (h : env.fstat_size = none) :
    check_size c env usemmap numbytes fd = (NULL, [Call.fstat fd, Call.perror_fstat]) := by
  unfold check_size
  rw [h]

theorem check_size_ne (c : Consts) (env : Env) (usemmap : Bool) (numbytes : Nat)
    (fd : Int) (sz : Nat) (h : env.fstat_size = some sz) (hne : sz % 2 ^ 64 ≠ numbytes) :
    check_size c env usemmap numbytes fd =
      (NULL, [Call.fstat fd, Call.cerr_size sz numbytes]) := by
  unfold check_size
  rw [h]
  exact if_pos hne

theorem check_size_eq (c : Consts) (env : Env) (usemmap : Bool) (numbytes : Nat)
    (fd : Int) (sz : Nat) (h : env.fstat_size = some sz) (heq : sz % 2 ^ 64 = numbytes) :
    check_size c env usemmap numbytes fd =
      ((map_region c env usemmap numbytes fd).1,
        Call.fstat fd :: (map_region c env usemmap numbytes fd).2) := by
  unfold check_size
  rw [h]
  exact if_neg (not_not.2 heq)

/-- The two ways `check_size` ends: with `NULL` and no mapping call (`fstat`
failed or the size differs), or with the result and the calls of
`map_region` after an `fstat` that reported the size `numbytes`. -/
theorem check_size_shape (c : Consts) (env : Env) (usemmap : Bool) (numbytes : Nat)
    (fd : Int) (hsz : ∀ sz, env.fstat_size = some sz → sz < 2 ^ 63) :
    (((check_size c env usemmap numbytes fd).1 = NULL ∧
        (∀ e ∈ (check_size c env usemmap numbytes fd).2, e.is_map = false)) ∧
      (env.fstat_size = none ∨ ∃ sz, env.fstat_size = some sz ∧ sz ≠ numbytes)) ∨
    (env.fstat_size = some numbytes ∧
      check_size c env usemmap numbytes fd =
        ((map_region c env usemmap numbytes fd).1,
          Call.fstat fd :: (map_region c env usemmap numbytes fd).2)) := by
  cases hf : env.fstat_size with
  | none =>
    left
    rw [check_size_none c env usemmap numbytes fd hf]
    refine ⟨⟨rfl, ?_⟩, Or.inl rfl⟩
    intro e he
    simp at he
    rcases he with rfl | rfl <;> rfl
  | some sz =>
    have hlt := hsz sz hf
    have hmod : sz % 2 ^ 64 = sz := Nat.mod_eq_of_lt (by omega)
    by_cases hne : sz = numbytes
    · right
      refine ⟨by rw [hne], ?_⟩
      exact check_size_eq c env usemmap numbytes fd sz hf (by rw [hmod]; exact hne)
    · left
      rw [check_size_ne c env usemmap numbytes fd sz hf (by rw [hmod]; exact hne)]
      refine ⟨⟨rfl, ?_⟩, Or.inr ⟨sz, rfl, hne⟩⟩
      intro e he
      simp at he
      rcases he with rfl | rfl <;> rfl

/-- The two ways `map_in_file` ends: with `NULL` before `fstat` (no mapping
call so far), or with the result of `check_size` on the descriptor that
`open` returned, after calls none of which is a mapping call. -/
theorem map_in_file_shape (c : Consts) (env : Env) (filename : String)
    (initonly noinit usemmap : Bool) (numbytes : Nat) :
    ∃ pre : List Call, (∀ e ∈ pre, e.is_map = false) ∧
      (map_in_file c env filename initonly noinit usemmap numbytes = (NULL, pre) ∨
       (env.open_fd (open_opts c initonly noinit) ≠ -1 ∧
        map_in_file c env filename initonly noinit usemmap numbytes =
          ((check_size c env usemmap numbytes
              (env.open_fd (open_opts c initonly noinit))).1,
            pre ++ (check_size c env usemmap numbytes
              (env.open_fd (open_opts c initonly noinit))).2))) := by
  have hpre : ∀ e ∈ unlink_step c env filename initonly noinit ++
      [Call.open_ filename (open_opts c initonly noinit) (c.S_IRUSR ||| c.S_IWUSR)],
      e.is_map = false := by
    intro e he
    rcases List.mem_append.1 he with he | he
    · exact unlink_step_no_map _ _ _ _ _ e he
    · rcases List.mem_singleton.1 he with rfl
      rfl
  by_cases hfd : env.open_fd (open_opts c initonly noinit) = -1
  · refine ⟨(unlink_step c env filename initonly noinit ++
        [Call.open_ filename (open_opts c initonly noinit) (c.S_IRUSR ||| c.S_IWUSR)]) ++
        [Call.perror_open], ?_, Or.inl ?_⟩
    · intro e he
      rcases List.mem_append.1 he with he | he
      · exact hpre e he
      · rcases List.mem_singleton.1 he with rfl
        rfl
    · unfold map_in_file
      exact if_pos hfd
  · by_cases hbit : open_opts c initonly noinit &&& c.O_CREAT ≠ 0
    · by_cases hfa : env.fallocate_ret ≠ 0
      · refine ⟨(unlink_step c env filename initonly noinit ++
          [Call.open_ filename (open_opts c initonly noinit) (c.S_IRUSR ||| c.S_IWUSR)]) ++
          [Call.posix_fallocate (env.open_fd (open_opts c initonly noinit)) 0
            (to_off_t numbytes), Call.perror_fallocate], ?_, Or.inl ?_⟩
        · intro e he
          rcases List.mem_append.1 he with he | he
          · exact hpre e he
          · simp at he
            rcases he with rfl | rfl <;> rfl
        · unfold map_in_file
          simp only
          rw [if_neg hfd, if_pos hbit, if_pos hfa]
      · refine ⟨(unlink_step c env filename initonly noinit ++
            [Call.open_ filename (open_opts c initonly noinit) (c.S_IRUSR ||| c.S_IWUSR)]) ++
            [Call.posix_fallocate (env.open_fd (open_opts c initonly noinit)) 0
              (to_off_t numbytes)], ?_, Or.inr ⟨hfd, ?_⟩⟩
        · intro e he
          rcases List.mem_append.1 he with he | he
          · exact hpre e he
          · rcases List.mem_singleton.1 he with rfl
            rfl
        · unfold map_in_file
          simp only
          rw [if_neg hfd, if_pos hbit, if_neg hfa]
          simp
    · refine ⟨unlink_step c env filename initonly noinit ++
        [Call.open_ filename (open_opts c initonly noinit) (c.S_IRUSR ||| c.S_IWUSR)],
        hpre, Or.inr ⟨hfd, ?_⟩⟩
      unfold map_in_file
      simp only
      rw [if_neg hfd, if_neg hbit]

/-- C10: when `open` fails, `fstat` fails or the size `fstat` reports
differs from `numbytes`, `map_in_file` returns `NULL` and calls neither `mmap`
nor `umap`.  A result other than `NULL` therefore means that `open`
succeeded, that the file has exactly `numbytes` bytes, and that the result is
the pointer returned by the one mapping call made, of `numbytes` bytes on the
opened descriptor: `mmap` when `usemmap`, `umap` otherwise; that pointer is
not the failure value.  A `MAP_FAILED` or `UMAP_FAILED` answer gives
`NULL`. -/
theorem map_in_file_nonnull_maps_numbytes (c : Consts) (env : Env)
    (filename : String) (initonly noinit usemmap : Bool) (numbytes : Nat)
    (hsz : ∀ sz, env.fstat_size = some sz → sz < 2 ^ 63) :
    ((env.open_fd (open_opts c initonly noinit) = -1 ∨ env.fstat_size = none ∨
        (∃ sz, env.fstat_size = some sz ∧ sz ≠ numbytes)) →
      (map_in_file c env filename initonly noinit usemmap numbytes).1 = NULL ∧
      ∀ e ∈ (map_in_file c env filename initonly noinit usemmap numbytes).2,
        e.is_map = false) ∧
    ((map_in_file c env filename initonly noinit usemmap numbytes).1 ≠ NULL →
      env.open_fd (open_opts c initonly noinit) ≠ -1 ∧
      env.fstat_size = some numbytes ∧
      (usemmap = true →
        (map_in_file c env filename initonly noinit usemmap numbytes).1 = env.mmap_ret ∧
        env.mmap_ret ≠ c.MAP_FAILED ∧
        (map_in_file c env filename initonly noinit usemmap numbytes).2.filter
            Call.is_map =
          [Call.mmap NULL numbytes (c.PROT_READ ||| c.PROT_WRITE)
            (c.MAP_SHARED ||| c.MAP_NORESERVE)
            (env.open_fd (open_opts c initonly noinit)) 0]) ∧
      (usemmap = false →
        (map_in_file c env filename initonly noinit usemmap numbytes).1 = env.umap_ret ∧
        env.umap_ret ≠ c.UMAP_FAILED ∧
        (map_in_file c env filename initonly noinit usemmap numbytes).2.filter
            Call.is_map =
          [Call.umap NULL numbytes (c.PROT_READ ||| c.PROT_WRITE) c.UMAP_PRIVATE
            (env.open_fd (open_opts c initonly noinit)) 0])) ∧
    (usemmap = true → env.mmap_ret = c.MAP_FAILED →
      (map_in_file c env filename initonly noinit usemmap numbytes).1 = NULL) ∧
    (usemmap = false → env.umap_ret = c.UMAP_FAILED →
      (map_in_file c env filename initonly noinit usemmap numbytes).1 = NULL) := by
  obtain ⟨pre, hpre, hshape⟩ :=
    map_in_file_shape c env filename initonly noinit usemmap numbytes
  have hfilter : pre.filter Call.is_map = [] :=
    List.filter_eq_nil_iff.2 (fun e he => by simp [hpre e he])
  rcases hshape with hnull | ⟨hfd, hrun⟩
  · rw [hnull]
    refine ⟨fun _ => ⟨rfl, hpre⟩, fun h => absurd rfl h, fun _ _ => rfl, fun _ _ => rfl⟩
  · rcases check_size_shape c env usemmap numbytes
        (env.open_fd (open_opts c initonly noinit)) hsz with
      ⟨⟨hn, hcalls⟩, hwhy⟩ | ⟨hsize, hcs⟩
    · rw [hrun]
      refine ⟨fun _ => ⟨hn, ?_⟩, fun h => absurd hn h, fun _ _ => hn, fun _ _ => hn⟩
      intro e he
      rcases List.mem_append.1 he with he | he
      · exact hpre e he
      · exact hcalls e he
    · have hmr := map_region_null_or c env usemmap numbytes
        (env.open_fd (open_opts c initonly noinit))
      rw [hrun, hcs]
      refine ⟨?_, ?_, ?_, ?_⟩
      · intro h
        rcases h with h | h | ⟨sz, h, hne⟩
        · exact absurd h hfd
        · rw [hsize] at h; cases h
        · rw [hsize] at h
          cases h
          exact absurd rfl hne
      · intro hnn
        refine ⟨hfd, hsize, ?_, ?_⟩
        · intro hu
          obtain ⟨h1, h2, h3⟩ := (hmr.1 hnn).1 hu
          refine ⟨h1, h2, ?_⟩
          simp only [h3, List.filter_append, hfilter, List.nil_append]
          rfl
        · intro hu
          obtain ⟨h1, h2, h3⟩ := (hmr.1 hnn).2 hu
          refine ⟨h1, h2, ?_⟩
          simp only [h3, List.filter_append, hfilter, List.nil_append]
          rfl
      · exact hmr.2.1
      · exact hmr.2.2

/-- Witness of C10 on Linux constants and the example run, with `umap`. -/
theorem map_in_file_nonnull_maps_numbytes_witness :
    (∀ sz, example_env.fstat_size = some sz → sz < 2 ^ 63) ∧
    (map_in_file linux example_env "sortfile" false false false 4096).1 ≠ NULL ∧
    ((map_in_file linux example_env "sortfile" false false false 4096).1 =
        example_env.umap_ret ∧
      example_env.umap_ret ≠ linux.UMAP_FAILED ∧
      (map_in_file linux example_env "sortfile" false false false 4096).2.filter
          Call.is_map =
        [Call.umap NULL 4096 (linux.PROT_READ ||| linux.PROT_WRITE) linux.UMAP_PRIVATE
          (example_env.open_fd (open_opts linux false false)) 0]) :=
  ⟨by intro sz h; cases h; decide, by decide,
    ((map_in_file_nonnull_maps_numbytes linux example_env "sortfile" false false false
      4096 (by intro sz h; cases h; decide)).2.1 (by decide)).2.2.2 rfl⟩

end utility
